import Mathlib

/-!
Verification development for the ai-flight-stats repository.

The embedding covers the flight-record reconciliation pipeline
(`POST /flights/scan` in `backend/src/routes/flights.routes.ts`), the
storage-layer helpers of `backend/src/services/db.service.ts` together with
the composite unique index of `backend/src/db/schema.sql`, the extraction
normalizer of `backend/src/services/parser.service.ts`, and the chat
orchestrator of `backend/src/services/chat.service.ts` (tool dispatch,
iteration-capped tool-calling loop, and globe-focus block handling).

External collaborators (the JavaScript `Date.parse` and `JSON.parse`
builtins, the airport directory, and the conversational backend) are taken
as function parameters, exactly at their interface boundaries.
-/

set_option maxHeartbeats 1000000

namespace FlightStats

/-- The JavaScript `x || null` coercion that `createFlight` applies to every
optional text column before binding it as a SQL parameter: an absent value
stays absent and an empty string (falsy in JavaScript) becomes NULL. -/
def normOpt : Option String → Option String
  | none => none
  | some s => if s = "" then none else some s

/-- SQL equality on a nullable text column: SQLite never considers NULL equal
to anything (including NULL), so a parameterized `col = ?` comparison is true
only when both sides are non-null and equal. -/
def sqlEq (a b : Option String) : Bool :=
  match a, b with
  | some x, some y => x == y
  | _, _ => false

/-- A row of the `flights` table (`backend/src/db/schema.sql`).  Fields never
consulted by the reconciliation, query or sanitization logic under study
(local times, cabin, passenger names, notes, coordinates, created_at) are
omitted.  `id` is the AUTOINCREMENT primary key; a candidate record built by
the scan route has no id until it is inserted. -/
structure Flight where
  id : Option Nat := none
  user_email : String
  confirmation_number : Option String := none
  flight_date : String
  departure_airport : String
  arrival_airport : String
  departure_city : Option String := none
  arrival_city : Option String := none
  airline : Option String := none
  flight_number : Option String := none
  email_message_id : Option String := none
  email_sent_date : Option String := none
  email_subject : Option String := none
  raw_email_content : Option String := none
  deriving Repr, DecidableEq

/-- The single-writer SQLite store: the `flights` table plus the
AUTOINCREMENT counter (SQLite rowids start at 1). -/
structure Store where
  nextId : Nat := 1
  rows : List Flight := []
  deriving Repr, DecidableEq

def emptyStore : Store := {}

/-- Modelled from the spec: `findExactDuplicate` lives in the flight db
service, which is imported by the scan route and exercised by its tests but
whose current source file is not in the sources (the in-tree
`db.service.ts` predates it).  Per spec §4.2 step 1 a stored record matched
when it shares the candidate's full identity key — confirmation code, flight
date, departure airport, arrival airport, flight number, all non-null and
equal — scoped to the candidate's user; NULL key fields never match (SQL
NULL semantics, confirmed by the `ignores dedup checks when key fields are
missing` test). -/
def exactKeyMatch (cand r : Flight) : Bool :=
  r.user_email == cand.user_email &&
  sqlEq r.confirmation_number cand.confirmation_number &&
  r.flight_date == cand.flight_date &&
  r.departure_airport == cand.departure_airport &&
  r.arrival_airport == cand.arrival_airport &&
  sqlEq r.flight_number cand.flight_number

/-- Modelled from the spec: the exact-duplicate query of §4.2 step 1 (see
`exactKeyMatch`). -/
def findExactDuplicate (store : Store) (cand : Flight) : Option Flight :=
  store.rows.find? (fun r => exactKeyMatch cand r)

/-- Modelled from the spec: the change-detection key of §4.2 step 2 — same
user and (same confirmation code OR same flight number combined with same
departure/arrival pair), with no requirement on the flight date; nullable
key columns compare under SQL NULL semantics. -/
def changeKeyMatch (cand r : Flight) : Bool :=
  r.user_email == cand.user_email &&
  (sqlEq r.confirmation_number cand.confirmation_number ||
   (sqlEq r.flight_number cand.flight_number &&
    r.departure_airport == cand.departure_airport &&
    r.arrival_airport == cand.arrival_airport))

/-- Modelled from the spec: `findFlightChange` of the flight db service
(§4.2 step 2, see `changeKeyMatch`); returns every stored record sharing the
candidate's change key. -/
def findFlightChange (store : Store) (cand : Flight) : List Flight :=
  store.rows.filter (fun r => changeKeyMatch cand r)

/-- Value normalization applied by `createFlight`
(`backend/src/services/db.service.ts`): every optional text parameter is
bound as `value || null`. -/
def normFields (cand : Flight) : Flight :=
  { cand with
    confirmation_number := normOpt cand.confirmation_number
    departure_city := normOpt cand.departure_city
    arrival_city := normOpt cand.arrival_city
    airline := normOpt cand.airline
    flight_number := normOpt cand.flight_number
    email_message_id := normOpt cand.email_message_id
    email_sent_date := normOpt cand.email_sent_date
    email_subject := normOpt cand.email_subject
    raw_email_content := normOpt cand.raw_email_content }

/-- The row `createFlight` actually inserts for candidate `cand` under the
fresh id `i`. -/
def toRow (i : Nat) (cand : Flight) : Flight :=
  { normFields cand with id := some i }

/-- Whether inserting `row` conflicts with existing row `r` on the composite
unique index `flights_unique_key` of `backend/src/db/schema.sql`
(user_email, confirmation_number, flight_date, departure_airport,
arrival_airport, flight_number).  SQLite treats NULL as distinct from
everything in a unique index, so a conflict requires each nullable column to
be non-null and equal on both sides. -/
def uniqueConflict (row r : Flight) : Bool :=
  r.user_email == row.user_email &&
  sqlEq r.confirmation_number row.confirmation_number &&
  r.flight_date == row.flight_date &&
  r.departure_airport == row.departure_airport &&
  r.arrival_airport == row.arrival_airport &&
  sqlEq r.flight_number row.flight_number

/-- `createFlight` (`backend/src/services/db.service.ts`): normalize the
optional text parameters, insert under a fresh id, and return the inserted
row; an `.error` result models the thrown `UNIQUE constraint failed` error
when the composite unique index rejects the row. -/
def createFlight (store : Store) (cand : Flight) : Except String (Store × Flight) :=
  let row := toRow store.nextId cand
  if store.rows.any (fun r => uniqueConflict row r) then
    .error "UNIQUE constraint failed"
  else
    .ok ({ nextId := store.nextId + 1, rows := store.rows ++ [row] }, row)

/-- Modelled from the spec: `deleteFlight` of the flight db service removes
the row with the given id (`DELETE FROM flights WHERE id = ?`). -/
def deleteFlight (store : Store) (i : Nat) : Store :=
  { store with rows := store.rows.filter (fun r => r.id != some i) }

def getFlightsByUser (userEmail : String) (store : Store) : List Flight :=
  store.rows.filter (fun r => r.user_email == userEmail)

/-- `parseEmailSentDate` from the scan route
(`backend/src/routes/flights.routes.ts`): a missing or empty value (falsy in
JavaScript) yields no timestamp, otherwise the `Date.parse` collaborator
`dateParse` is consulted, with `none` standing for NaN. -/
def parseEmailSentDate (dateParse : String → Option Int) : Option String → Option Int
  | none => none
  | some s => if s = "" then none else dateParse s

/-- `Math.max` over a list of timestamps (only ever applied to a non-empty
list thanks to the short-circuit `||` guarding it in the route). -/
def listMax : List Int → Option Int
  | [] => none
  | x :: xs => some (xs.foldl max x)

/-- The `shouldReplace` decision of the scan route: a candidate with a
parseable sent-date replaces when no matched record has a parseable
sent-date or its timestamp is strictly newer than their maximum; a candidate
without a parseable sent-date replaces only when no matched record has
one. -/
def shouldReplace (dateParse : String → Option Int) (cand : Flight)
    (matched : List Flight) : Bool :=
  let existingTs := matched.filterMap (fun f => parseEmailSentDate dateParse f.email_sent_date)
  match parseEmailSentDate dateParse cand.email_sent_date with
  | some t =>
      existingTs.isEmpty ||
        (match listMax existingTs with
         | some m => m < t
         | none => false)
  | none => existingTs.isEmpty

/-- The `for (const existing of existingFlights) { if (existing.id)
deleteFlight(existing.id) }` loop of the scan route. -/
def deleteMatched (matched : List Flight) (store : Store) : Store :=
  matched.foldl
    (fun st ex =>
      match ex.id with
      | some i => deleteFlight st i
      | none => st) store

inductive ReconcileOutcome where
  | skippedDuplicate
  | skippedStale
  | replaced (n : Nat)
  | inserted
  | insertConflict
  deriving Repr, DecidableEq

structure ReconcileResult where
  store : Store
  outcome : ReconcileOutcome
  saved : Option Flight
  deriving Repr, DecidableEq

/-- One pass of the reconciliation loop body of `POST /flights/scan`
(`backend/src/routes/flights.routes.ts`): exact-duplicate guard, then
change detection with the supersession decision (delete every matched
record, then insert), then plain insert; a `UNIQUE constraint failed` throw
from `createFlight` is caught and the candidate is simply not saved. -/
def reconcileOne (dateParse : String → Option Int) (store : Store) (cand : Flight) :
    ReconcileResult :=
  if (findExactDuplicate store cand).isSome then
    ⟨store, .skippedDuplicate, none⟩
  else
    let matched := findFlightChange store cand
    if matched.isEmpty then
      match createFlight store cand with
      | .ok (st2, row) => ⟨st2, .inserted, some row⟩
      | .error _ => ⟨store, .insertConflict, none⟩
    else if shouldReplace dateParse cand matched then
      let st2 := deleteMatched matched store
      match createFlight st2 cand with
      | .ok (st3, row) => ⟨st3, .replaced matched.length, some row⟩
      | .error _ => ⟨st2, .insertConflict, none⟩
    else ⟨store, .skippedStale, none⟩

/-- The JSON body of `POST /flights/scan`; `saved := none` models the
`saved` field being absent from the response object. -/
structure ScanResponse where
  scanned : Nat
  parsed : Nat
  saved : Option Nat
  flights : List Flight
  deriving Repr, DecidableEq

/-- `POST /flights/scan` at the reconciliation level: `emails` holds, per
fetched Gmail message, the candidate records its parsed segments produce.
An empty mailbox takes the early return `{scanned: 0, parsed: 0, flights: []}`
(which carries no `saved` field); otherwise every candidate is reconciled in
order and the successfully saved rows are reported. -/
def scan (dateParse : String → Option Int) (store : Store)
    (emails : List (List Flight)) : Store × ScanResponse :=
  if emails.isEmpty then
    (store, { scanned := 0, parsed := 0, saved := none, flights := [] })
  else
    let acc := emails.foldl
      (fun acc flightsFromEmail =>
        flightsFromEmail.foldl
          (fun acc2 cand =>
            let res := reconcileOne dateParse acc2.1 cand
            (res.store, acc2.2 ++ res.saved.toList))
          acc)
      (store, ([] : List Flight))
    (acc.1,
     { scanned := emails.length
       parsed := (emails.map List.length).sum
       saved := some acc.2.length
       flights := acc.2 })

/-! ### Query tool layer (`backend/src/services/db.service.ts`) -/

/-- Insertion of `x` into a list sorted by the boolean comparison `le`;
`insertionSortBy` realizes the `ORDER BY` clauses of the SQL queries. -/
def insertSorted (le : α → α → Bool) (x : α) : List α → List α
  | [] => [x]
  | y :: ys => if le x y then x :: y :: ys else y :: insertSorted le x ys

def insertionSortBy (le : α → α → Bool) : List α → List α
  | [] => []
  | x :: xs => insertSorted le x (insertionSortBy le xs)

/-- SQLite text comparison (byte-wise memcmp, adequate for the `YYYY-MM-DD`
date strings the queries compare). -/
def leChars : List Char → List Char → Bool
  | [], _ => true
  | _ :: _, [] => false
  | a :: as2, b :: bs => if a == b then leChars as2 bs else decide (a.toNat < b.toNat)

def strLe (a b : String) : Bool := leChars a.data b.data

/-- `ORDER BY flight_date DESC`. -/
def byDateDesc (a b : Flight) : Bool :=
  strLe b.flight_date a.flight_date

/-- `strftime('%Y', flight_date) = year` for an optional year filter; SQLite
dates are `YYYY-MM-DD` strings so `%Y` is the first four characters. -/
def yearMatch (year : Option Nat) (d : String) : Bool :=
  match year with
  | none => true
  | some y => String.mk (d.data.take 4) == toString y

/-- `getFlightsByDateRange`: records of the user with `flight_date BETWEEN
startDate AND endDate` (inclusive), most recent first. -/
def getFlightsByDateRange (userEmail startDate endDate : String) (store : Store) :
    List Flight :=
  insertionSortBy byDateDesc
    (store.rows.filter (fun r =>
      r.user_email == userEmail &&
      strLe startDate r.flight_date && strLe r.flight_date endDate))

/-- One row of the `getAirportVisits` result (`airport`, `city`). -/
structure AirportVisit where
  airport : String
  city : Option String
  deriving Repr, DecidableEq

/-- `getAirportVisits`: the SQL UNION (which deduplicates) of the distinct
departure and arrival endpoints of the user's optionally year-filtered
records. -/
def getAirportVisits (userEmail : String) (year : Option Nat) (store : Store) :
    List AirportVisit :=
  let rs := store.rows.filter (fun r =>
    r.user_email == userEmail && yearMatch year r.flight_date)
  ((rs.map (fun r => AirportVisit.mk r.departure_airport r.departure_city)) ++
   (rs.map (fun r => AirportVisit.mk r.arrival_airport r.arrival_city))).dedup

/-- `getTotalFlights`: `COUNT(*)` of the user's optionally year-filtered
records. -/
def getTotalFlights (userEmail : String) (year : Option Nat) (store : Store) : Nat :=
  (store.rows.filter (fun r =>
    r.user_email == userEmail && yearMatch year r.flight_date)).length

/-- `getFlightsByAirport`: records of the user with the given code as either
endpoint, most recent first. -/
def getFlightsByAirport (userEmail airportCode : String) (store : Store) : List Flight :=
  insertionSortBy byDateDesc
    (store.rows.filter (fun r =>
      r.user_email == userEmail &&
      (r.departure_airport == airportCode || r.arrival_airport == airportCode)))

/-- `getAirlineStats`: distinct non-null airlines of the user with their
record counts, descending by count. -/
def getAirlineStats (userEmail : String) (store : Store) : List (String × Nat) :=
  let rs := store.rows.filter (fun r => r.user_email == userEmail && r.airline.isSome)
  insertionSortBy (fun a b => decide (b.2 ≤ a.2))
    ((rs.filterMap Flight.airline).dedup.map
      (fun n => (n, (rs.filter (fun r => r.airline == some n)).length)))

/-- One row of the `getEmailBodies` result. -/
structure EmailBody where
  email_message_id : Option String
  email_subject : Option String
  email_sent_date : Option String
  raw_email_content : Option String
  deriving Repr, DecidableEq

/-- Modelled from the spec: `getEmailBodies` of the flight db service (§4.3
`emailBodies`) returns raw body, subject and sent-date of the records whose
provenance message id is among the requested ids, restricted to the
requesting user's records. -/
def getEmailBodies (userEmail : String) (ids : List String) (store : Store) :
    List EmailBody :=
  (store.rows.filter (fun r =>
    r.user_email == userEmail &&
    (match r.email_message_id with
     | some m => ids.contains m
     | none => false))).map
    (fun r => ⟨r.email_message_id, r.email_subject, r.email_sent_date,
               r.raw_email_content⟩)

/-! ### Chat tool dispatch (`backend/src/services/chat.service.ts`) -/

/-- JavaScript `toUpperCase` (character-wise on the underlying list). -/
def upperStr (s : String) : String := String.mk (s.data.map Char.toUpper)

/-- `sanitizeFlightRecord`: drops the `raw_email_content` key from a flight
record (modelled as setting it to `none`); the camelCase email-metadata
aliases it additionally attaches duplicate fields the record already
carries, so they are not modelled separately. -/
def sanitizeFlightRecord (f : Flight) : Flight :=
  { f with raw_email_content := none }

/-- The argument object of a tool call; each dispatch branch reads only its
own fields of the untyped JSON payload. -/
structure ToolArgs where
  startDate : String := ""
  endDate : String := ""
  year : Option Nat := none
  airportCode : String := ""
  emailMessageIds : List String := []
  deriving Repr, DecidableEq

/-- The result value a tool execution feeds back to the model. -/
inductive ToolResult where
  | flights (fs : List Flight)
  | airports (vs : List AirportVisit)
  | total (n : Nat) (year : Option Nat)
  | stats (s : List (String × Nat))
  | emails (es : List EmailBody)
  deriving Repr, DecidableEq

/-- The flight records carried by a tool result (the other result shapes
carry no flight records at all). -/
def resultFlightRecords : ToolResult → List Flight
  | .flights fs => fs
  | _ => []

/-- `executeTool`: dispatch on the requested tool name; the date-range and
airport lookups sanitize every record, and an unknown name throws. -/
def executeTool (toolName : String) (args : ToolArgs) (userEmail : String)
    (store : Store) : Except String ToolResult :=
  if toolName = "getFlightsByDateRange" then
    .ok (.flights ((getFlightsByDateRange userEmail args.startDate args.endDate
      store).map sanitizeFlightRecord))
  else if toolName = "getAirportVisits" then
    .ok (.airports (getAirportVisits userEmail args.year store))
  else if toolName = "getTotalFlights" then
    .ok (.total (getTotalFlights userEmail args.year store) args.year)
  else if toolName = "getFlightsByAirport" then
    .ok (.flights ((getFlightsByAirport userEmail (upperStr args.airportCode)
      store).map sanitizeFlightRecord))
  else if toolName = "getAirlineStats" then
    .ok (.stats (getAirlineStats userEmail store))
  else if toolName = "getEmailBodies" then
    .ok (.emails (getEmailBodies userEmail args.emailMessageIds store))
  else
    .error ("Unknown tool: " ++ toolName)

/-- The fixed tool catalogue of `backend/src/tools/flight-tools.ts`. -/
def toolNames : List String :=
  ["getFlightsByDateRange", "getAirportVisits", "getTotalFlights",
   "getFlightsByAirport", "getAirlineStats", "getEmailBodies"]

/-! ### Globe-focus block handling (`parseGlobeFocusBlock` and helpers) -/

/-- JavaScript `String.prototype.trim` on a character list. -/
def jsTrim (s : List Char) : List Char :=
  ((s.dropWhile Char.isWhitespace).reverse.dropWhile Char.isWhitespace).reverse

/-- Lower-casing used to model the case-insensitive (`/i`) focus-block
regex. -/
def lcChars (s : List Char) : List Char := s.map Char.toLower

def openMarker : List Char := "<globe_focus>".toList

def closeMarker : List Char := "</globe_focus>".toList

/-- Whether `pat` occurs at the head of `s`. -/
def beginsWith : List Char → List Char → Bool
  | [], _ => true
  | _ :: _, [] => false
  | p :: ps, c :: cs => p == c && beginsWith ps cs

/-- Index of the first occurrence of `pat` in `s` (the regex engine's
left-to-right scan). -/
def findSubIdx (pat : List Char) : List Char → Option Nat
  | [] => if beginsWith pat [] then some 0 else none
  | c :: rest =>
    if beginsWith pat (c :: rest) then some 0
    else (findSubIdx pat rest).map (· + 1)

/-- One element of a `flights` array inside a focus payload, holding the
three fields `sanitizeFlightEntry` type-checks; `none` models a field that
is missing or not a string. -/
structure FlightEntry where
  departure_airport : Option String := none
  arrival_airport : Option String := none
  flight_date : Option String := none
  deriving Repr, DecidableEq

/-- `sanitizeFlightEntry`: keep an entry only when its airports and date are
all strings. -/
def sanitizeFlightEntry (e : FlightEntry) : Option FlightEntry :=
  if e.departure_airport.isSome && e.arrival_airport.isSome &&
     e.flight_date.isSome then some e else none

/-- One element of an `airports` array inside a focus payload (the fields
`sanitizeAirportEntry` inspects; `none` models missing / non-string). -/
structure AirportEntry where
  code : Option String := none
  airport : Option String := none
  city : Option String := none
  name : Option String := none
  deriving Repr, DecidableEq

structure SanAirport where
  code : String
  city : Option String
  deriving Repr, DecidableEq

/-- `sanitizeAirportEntry`: take `code` (or fallback `airport`) when it is a
string, rejecting a falsy (empty) code, and pair it with `city` (or fallback
`name`). -/
def sanitizeAirportEntry (e : AirportEntry) : Option SanAirport :=
  let code := match e.code with
    | some c => some c
    | none => e.airport
  match code with
  | none => none
  | some c =>
    if c = "" then none
    else some ⟨c, match e.city with
                  | some c2 => some c2
                  | none => e.name⟩

/-- The shape `JSON.parse` hands to the mode/array checks: a successfully
parsed object with a `mode` field and optional `flights` / `airports`
arrays (`none` models a missing or non-array field).  A parse failure or a
non-object value is modelled by the collaborator returning `none`. -/
structure FocusCandidate where
  mode : String
  flights : Option (List FlightEntry) := none
  airports : Option (List AirportEntry) := none
  deriving Repr, DecidableEq

/-- The sanitized focus directive handed to the caller. -/
structure GlobeFocusPayload where
  mode : String
  flights : Option (List FlightEntry) := none
  airports : Option (List SanAirport) := none
  deriving Repr, DecidableEq

def isValidGlobeFocusMode (m : String) : Bool :=
  m == "all" || m == "flights" || m == "airports"

/-- The payload-sanitizing body of `parseGlobeFocusBlock`: an unrecognized
mode yields no directive; `flights` / `airports` arrays are filtered through
their entry sanitizers and attached only when non-empty. -/
def buildFocusPayload (c : FocusCandidate) : Option GlobeFocusPayload :=
  if isValidGlobeFocusMode c.mode then
    let base : GlobeFocusPayload := { mode := c.mode }
    let withFlights :=
      if c.mode == "flights" then
        match c.flights with
        | some fs =>
          let good := fs.filterMap sanitizeFlightEntry
          if good.length > 0 then { base with flights := some good } else base
        | none => base
      else base
    some (if c.mode == "airports" then
      match c.airports with
      | some vs =>
        let good := (vs.filterMap sanitizeAirportEntry).map
          (fun a => SanAirport.mk (upperStr a.code) a.city)
        if good.length > 0 then { withFlights with airports := some good }
        else withFlights
      | none => withFlights
    else withFlights)
  else none

/-- `parseGlobeFocusBlock`: find the first (case-insensitive, non-greedy)
`<globe_focus>...</globe_focus>` block; when present, strip it from the
content (trimming the remainder) and attempt to parse its trimmed inner text
through the `JSON.parse` collaborator `jsonParse`, discarding the directive
on parse failure or invalid shape. -/
def parseGlobeFocusBlock (jsonParse : List Char → Option FocusCandidate)
    (content : List Char) : List Char × Option GlobeFocusPayload :=
  let low := lcChars content
  match findSubIdx openMarker low with
  | none => (content, none)
  | some i =>
    match findSubIdx closeMarker (low.drop (i + openMarker.length)) with
    | none => (content, none)
    | some k =>
      let inner := (content.drop (i + openMarker.length)).take k
      let focus := match jsonParse (jsTrim inner) with
        | some c => buildFocusPayload c
        | none => none
      let cleaned := jsTrim (content.take i ++
        content.drop (i + openMarker.length + k + closeMarker.length))
      (cleaned, focus)

/-! ### Tool-calling orchestration loop (`chat`) -/

/-- One tool call requested by a model response. -/
structure ToolCallReq where
  callId : String := ""
  name : String
  args : ToolArgs := {}
  deriving Repr, DecidableEq

/-- One response of the conversational backend: the finish reason, the
optional textual content, and the requested tool calls. -/
structure ModelResponse where
  finishReason : String
  content : Option (List Char) := none
  toolCalls : List ToolCallReq := []
  deriving Repr, DecidableEq

/-- One executed invocation recorded in the turn's audit list. -/
structure ToolInvocation where
  tool : String
  args : ToolArgs
  result : ToolResult
  deriving Repr, DecidableEq

/-- Execute every tool call requested in one model turn, in order; an
unknown tool name aborts the turn. -/
def execTools (userEmail : String) (store : Store) :
    List ToolCallReq → Except String (List ToolInvocation)
  | [] => .ok []
  | tc :: rest =>
    match executeTool tc.name tc.args userEmail store with
    | .error e => .error e
    | .ok res =>
      match execTools userEmail store rest with
      | .error e => .error e
      | .ok tail => .ok (⟨tc.name, tc.args, res⟩ :: tail)

/-- `const maxIterations = 5`. -/
def maxIterations : Nat := 5

/-- The fallback final message `'Sorry, I could not process your
request.'`. -/
def fallbackMessage : List Char :=
  "Sorry, I could not process your request.".toList

/-- The `while (finish_reason === 'tool_calls' && iterations < maxIterations)`
loop of `chat`.  `fuel` maintains the invariant `fuel = maxIterations -
iterations`, so `fuel = 0` is exactly the loop guard `iterations <
maxIterations` failing; the backend is consulted once more per iteration
(`backend n` is the response to the (n+1)-th completion request). -/
def chatAux (backend : Nat → ModelResponse) (userEmail : String) (store : Store) :
    Nat → ModelResponse → Nat → List ToolInvocation →
    Except String (ModelResponse × Nat × List ToolInvocation)
  | 0, resp, iters, acc => .ok (resp, iters, acc)
  | fuel + 1, resp, iters, acc =>
    if resp.finishReason = "tool_calls" then
      match execTools userEmail store resp.toolCalls with
      | .error e => .error e
      | .ok invs =>
        chatAux backend userEmail store fuel (backend (iters + 1)) (iters + 1)
          (acc ++ invs)
    else .ok (resp, iters, acc)

/-- The chat turn's result: final (focus-stripped) answer text, the audit
list (absent when no tool ran, mirroring `toolCallsInfo.length > 0 ? ... :
undefined`), the optional focus directive, and the loop counter value at
exit (recorded to state the iteration bound). -/
structure ChatOut where
  message : List Char
  toolCalls : Option (List ToolInvocation)
  globeFocus : Option GlobeFocusPayload
  iterations : Nat
  deriving Repr, DecidableEq

/-- `chat` (`backend/src/services/chat.service.ts`): run the tool-calling
loop from the first backend response, fall back to the fixed message when
the final response has no textual content, and strip/parse the globe-focus
block. -/
def chat (backend : Nat → ModelResponse)
    (jsonParse : List Char → Option FocusCandidate)
    (userEmail : String) (store : Store) : Except String ChatOut :=
  match chatAux backend userEmail store maxIterations (backend 0) 0 [] with
  | .error e => .error e
  | .ok (finalResp, iters, invs) =>
    let finalRaw := finalResp.content.getD fallbackMessage
    let cleanedAndFocus := parseGlobeFocusBlock jsonParse finalRaw
    .ok { message := cleanedAndFocus.1
          toolCalls := if invs.length > 0 then some invs else none
          globeFocus := cleanedAndFocus.2
          iterations := iters }

/-! ### Extraction normalizer (`backend/src/services/parser.service.ts`) -/

/-- JavaScript `trim` on a string. -/
def jsTrimStr (s : String) : String := String.mk (jsTrim s.data)

/-- JavaScript `replace(/\s+/g, '')`. -/
def stripSpaces (s : String) : String :=
  String.mk (s.data.filter (fun c => !c.isWhitespace))

/-- An airport-directory record, restricted to the fields `normalizeFlight`
reads; the numeric coordinates are carried opaquely (never computed with),
so they are modelled as integers. -/
structure Airport where
  city : String
  latitude : Int
  longitude : Int
  deriving Repr, DecidableEq

/-- One raw flight segment from the extraction backend
(`FlightSegmentSchema`); optional / nullish fields are `Option`s. -/
structure RawSegment where
  confirmationNumber : Option String := none
  flightDateLocal : String
  departureTimeLocal : Option String := none
  arrivalTimeLocal : Option String := none
  departureAirport : Option String := none
  arrivalAirport : Option String := none
  airline : Option String := none
  flightNumber : Option String := none
  cabin : Option String := none
  passengerNames : Option (List String) := none
  notes : Option String := none
  deriving Repr, DecidableEq

/-- A normalized flight (`ParsedFlight`), before email-provenance
enrichment. -/
structure ParsedFlight where
  confirmationNumber : Option String := none
  flightDate : String
  departureTimeLocal : Option String := none
  arrivalTimeLocal : Option String := none
  departureAirport : String
  arrivalAirport : String
  airline : Option String := none
  flightNumber : Option String := none
  cabin : Option String := none
  passengerNames : Option (List String) := none
  notes : Option String := none
  departureCity : String
  arrivalCity : String
  departureLat : Int
  departureLng : Int
  arrivalLat : Int
  arrivalLng : Int
  deriving Repr, DecidableEq

/-- The `iata` helper of `normalizeFlight`:
`(s ?? '').trim().toUpperCase()`. -/
def iataNorm (s : Option String) : String := upperStr (jsTrimStr (s.getD ""))

/-- `normalizeFlight`: trim and uppercase both airport codes, drop the
segment when either is not exactly 3 characters or fails the airport
directory lookup `dir` (the `airportService.getAirportByCode`
collaborator); otherwise normalize flight number and confirmation code and
attach the resolved cities and coordinates. -/
def normalizeFlight (dir : String → Option Airport) (seg : RawSegment) :
    Option ParsedFlight :=
  let code := iataNorm seg.departureAirport
  let arr := iataNorm seg.arrivalAirport
  if code.length != 3 || arr.length != 3 then none
  else
    match dir code with
    | none => none
    | some dep =>
      match dir arr with
      | none => none
      | some dst =>
        some
          { confirmationNumber := seg.confirmationNumber.map upperStr
            flightDate := seg.flightDateLocal
            departureTimeLocal := seg.departureTimeLocal
            arrivalTimeLocal := seg.arrivalTimeLocal
            departureAirport := code
            arrivalAirport := arr
            airline := seg.airline.map jsTrimStr
            flightNumber := seg.flightNumber.map (fun s => upperStr (stripSpaces s))
            cabin := seg.cabin
            passengerNames := seg.passengerNames
            notes := seg.notes
            departureCity := dep.city
            arrivalCity := dst.city
            departureLat := dep.latitude
            departureLng := dep.longitude
            arrivalLat := dst.latitude
            arrivalLng := dst.longitude }

/-- The normalize-and-filter step of `parseFlightEmail`:
`parsed.flights.map(normalizeFlight).filter(f => f !== null)`. -/
def normalizeSegments (dir : String → Option Airport) (segs : List RawSegment) :
    List ParsedFlight :=
  (segs.map (normalizeFlight dir)).filterMap id

/-! ### Basic lemmas about the store model -/

theorem sqlEq_none_right (a : Option String) : sqlEq a none = false := by
  cases a <;> rfl

theorem sqlEq_none_left (b : Option String) : sqlEq none b = false := rfl

theorem sqlEq_eq_true_iff (a b : Option String) :
    sqlEq a b = true ↔ ∃ x, a = some x ∧ b = some x := by
  cases a with
  | none => simp [sqlEq]
  | some x =>
    cases b with
    | none => simp [sqlEq]
    | some y =>
      simp only [sqlEq, beq_iff_eq, Option.some.injEq]
      constructor
      · intro h
        exact ⟨x, rfl, h.symm⟩
      · rintro ⟨z, hz1, hz2⟩
        rw [hz1, hz2]

theorem normOpt_eq_some {o : Option String} {x : String}
    (h : normOpt o = some x) : o = some x := by
  cases o with
  | none => simp [normOpt] at h
  | some s =>
    simp only [normOpt] at h
    split at h
    · exact absurd h (by simp)
    · simpa using h

theorem parseEmailSentDate_normOpt (dateParse : String → Option Int)
    (o : Option String) :
    parseEmailSentDate dateParse (normOpt o) = parseEmailSentDate dateParse o := by
  cases o with
  | none => rfl
  | some s =>
    by_cases h : s = "" <;> simp [normOpt, parseEmailSentDate, h]

theorem toRow_user (i : Nat) (cand : Flight) :
    (toRow i cand).user_email = cand.user_email := rfl

theorem toRow_conf (i : Nat) (cand : Flight) :
    (toRow i cand).confirmation_number = normOpt cand.confirmation_number := rfl

theorem toRow_date (i : Nat) (cand : Flight) :
    (toRow i cand).flight_date = cand.flight_date := rfl

theorem toRow_dep (i : Nat) (cand : Flight) :
    (toRow i cand).departure_airport = cand.departure_airport := rfl

theorem toRow_arr (i : Nat) (cand : Flight) :
    (toRow i cand).arrival_airport = cand.arrival_airport := rfl

theorem toRow_fn (i : Nat) (cand : Flight) :
    (toRow i cand).flight_number = normOpt cand.flight_number := rfl

theorem toRow_sent (i : Nat) (cand : Flight) :
    (toRow i cand).email_sent_date = normOpt cand.email_sent_date := rfl

theorem toRow_id (i : Nat) (cand : Flight) : (toRow i cand).id = some i := rfl

/-- A unique-index conflict of the row inserted for `cand` against `r` means
`r` already matched the candidate's full identity key: the index columns are
exactly the identity key, and the `|| null` coercion only narrows the
non-null cases. -/
theorem uniqueConflict_toRow {i : Nat} {cand r : Flight}
    (h : uniqueConflict (toRow i cand) r = true) : exactKeyMatch cand r = true := by
  simp only [uniqueConflict, toRow_user, toRow_conf, toRow_date, toRow_dep,
    toRow_arr, toRow_fn, Bool.and_eq_true] at h
  obtain ⟨⟨⟨⟨⟨hu, hc⟩, hd⟩, hdep⟩, harr⟩, hf⟩ := h
  obtain ⟨c, hc1, hc2⟩ := (sqlEq_eq_true_iff _ _).mp hc
  obtain ⟨n, hn1, hn2⟩ := (sqlEq_eq_true_iff _ _).mp hf
  have hc3 := normOpt_eq_some hc2
  have hn3 := normOpt_eq_some hn2
  simp [exactKeyMatch, sqlEq_eq_true_iff, hu, hd, hdep, harr, hc1, hc3, hn1, hn3]

/-- `findExactDuplicate` returning nothing means no stored row matched the
identity key. -/
theorem exactDuplicate_none_all {store : Store} {cand : Flight}
    (h : findExactDuplicate store cand = none) :
    ∀ r ∈ store.rows, exactKeyMatch cand r = false := by
  intro r hr
  have := List.find?_eq_none.mp h r hr
  simpa using this

/-- Under `findExactDuplicate = none` the insert of the candidate can never
hit the unique index, so `createFlight` succeeds on any subset of the
rows. -/
theorem createFlight_ok_of_no_dup {store st2 : Store} {cand : Flight}
    (hsub : ∀ r ∈ st2.rows, r ∈ store.rows)
    (hexact : findExactDuplicate store cand = none) :
    createFlight st2 cand =
      .ok ({ nextId := st2.nextId + 1, rows := st2.rows ++ [toRow st2.nextId cand] },
           toRow st2.nextId cand) := by
  have hnone : st2.rows.any (fun r => uniqueConflict (toRow st2.nextId cand) r) = false := by
    rw [List.any_eq_false]
    intro r hr
    intro hconf
    have := uniqueConflict_toRow hconf
    rw [exactDuplicate_none_all hexact r (hsub r hr)] at this
    exact Bool.false_ne_true this
  simp [createFlight, hnone]

/-! ### Claim theorems: exact duplicates, null keys -/

/-- Claim C2: a candidate whose full identity key (user, confirmation code,
flight date, departure airport, arrival airport, flight number — all
non-null) equals that of a stored record of the same user is discarded as a
skipped duplicate before the change-detection step, with no store writes;
reconciling the same candidate twice yields the duplicate result both times
and leaves the record count unchanged. -/
theorem exact_duplicate_skipped_idempotent
    (dateParse : String → Option Int) (store : Store) (cand r : Flight)
    (hr : r ∈ store.rows)
    (huser : r.user_email = cand.user_email)
    (hconf : ∃ c, cand.confirmation_number = some c ∧ r.confirmation_number = some c)
    (hdate : r.flight_date = cand.flight_date)
    (hdep : r.departure_airport = cand.departure_airport)
    (harr : r.arrival_airport = cand.arrival_airport)
    (hfn : ∃ n, cand.flight_number = some n ∧ r.flight_number = some n) :
    reconcileOne dateParse store cand = ⟨store, .skippedDuplicate, none⟩ ∧
    reconcileOne dateParse (reconcileOne dateParse store cand).store cand
      = ⟨store, .skippedDuplicate, none⟩ ∧
    (reconcileOne dateParse (reconcileOne dateParse store cand).store cand).store.rows.length
      = store.rows.length := by
  obtain ⟨c, hc1, hc2⟩ := hconf
  obtain ⟨n, hn1, hn2⟩ := hfn
  have hkey : exactKeyMatch cand r = true := by
    simp [exactKeyMatch, sqlEq_eq_true_iff, huser, hdate, hdep, harr, hc1, hc2,
      hn1, hn2]
  have hsome : (findExactDuplicate store cand).isSome = true := by
    rw [findExactDuplicate, List.find?_isSome]
    exact ⟨r, hr, hkey⟩
  have h1 : reconcileOne dateParse store cand = ⟨store, .skippedDuplicate, none⟩ := by
    simp [reconcileOne, hsome]
  refine ⟨h1, ?_, ?_⟩ <;> rw [h1]
  · exact h1
  · rw [h1]

/-- Concrete candidate for the C2 witness. -/
def c2cand : Flight :=
  { user_email := "u", confirmation_number := some "ABC123",
    flight_date := "2024-05-15", departure_airport := "SFO",
    arrival_airport := "LAX", flight_number := some "UA100" }

/-- Concrete stored row for the C2 witness. -/
def c2row : Flight := { c2cand with id := some 1, email_sent_date := some "d" }

/-- Concrete store for the C2 witness. -/
def c2store : Store := { nextId := 2, rows := [c2row] }

/-- Claim C2 witness. -/
theorem exact_duplicate_skipped_idempotent_witness :
    reconcileOne (fun _ => none) c2store c2cand = ⟨c2store, .skippedDuplicate, none⟩ ∧
    reconcileOne (fun _ => none)
        (reconcileOne (fun _ => none) c2store c2cand).store c2cand
      = ⟨c2store, .skippedDuplicate, none⟩ ∧
    (reconcileOne (fun _ => none)
        (reconcileOne (fun _ => none) c2store c2cand).store c2cand).store.rows.length
      = c2store.rows.length :=
  exact_duplicate_skipped_idempotent (fun _ => none) c2store c2cand c2row
    (by decide) (by decide) ⟨"ABC123", by decide, by decide⟩ (by decide)
    (by decide) (by decide) ⟨"UA100", by decide, by decide⟩

/-- Claim C4: a candidate with no confirmation number and no flight number
is exempt from every deduplication layer: against any store the
exact-duplicate query finds nothing, the change-detection query returns no
matches, and the composite unique index never rejects the insert, so
reconciling two such (otherwise identical) candidates persists both as
separate records. -/
theorem null_key_candidates_both_insert
    (dateParse : String → Option Int) (store : Store) (cand : Flight)
    (hconf : cand.confirmation_number = none)
    (hfn : cand.flight_number = none) :
    findExactDuplicate store cand = none ∧
    findFlightChange store cand = [] ∧
    reconcileOne dateParse store cand =
      ⟨⟨store.nextId + 1, store.rows ++ [toRow store.nextId cand]⟩, .inserted,
        some (toRow store.nextId cand)⟩ ∧
    reconcileOne dateParse (reconcileOne dateParse store cand).store cand =
      ⟨⟨store.nextId + 2,
        store.rows ++ [toRow store.nextId cand, toRow (store.nextId + 1) cand]⟩,
       .inserted, some (toRow (store.nextId + 1) cand)⟩ := by
  have hek : ∀ r : Flight, exactKeyMatch cand r = false := by
    intro r
    simp [exactKeyMatch, hconf, sqlEq_none_right]
  have hck : ∀ r : Flight, changeKeyMatch cand r = false := by
    intro r
    simp [changeKeyMatch, hconf, hfn, sqlEq_none_right]
  have huc : ∀ (i : Nat) (r : Flight), uniqueConflict (toRow i cand) r = false := by
    intro i r
    simp [uniqueConflict, toRow_conf, hconf, normOpt, sqlEq_none_right]
  have hdup : ∀ st : Store, findExactDuplicate st cand = none := by
    intro st
    rw [findExactDuplicate, List.find?_eq_none]
    intro r _
    simp [hek r]
  have hchg : ∀ st : Store, findFlightChange st cand = [] := by
    intro st
    rw [findFlightChange, List.filter_eq_nil_iff]
    intro r _
    simp [hck r]
  have hcf : ∀ st : Store, createFlight st cand =
      .ok ({ nextId := st.nextId + 1, rows := st.rows ++ [toRow st.nextId cand] },
           toRow st.nextId cand) := by
    intro st
    have : st.rows.any (fun r => uniqueConflict (toRow st.nextId cand) r) = false := by
      rw [List.any_eq_false]
      intro r _
      simp [huc st.nextId r]
    simp [createFlight, this]
  have hstep : ∀ st : Store, reconcileOne dateParse st cand =
      ⟨⟨st.nextId + 1, st.rows ++ [toRow st.nextId cand]⟩, .inserted,
        some (toRow st.nextId cand)⟩ := by
    intro st
    simp [reconcileOne, hdup st, hchg st, hcf st]
  refine ⟨hdup store, hchg store, hstep store, ?_⟩
  rw [hstep store]
  rw [hstep _]
  simp

/-- Concrete candidate for the C4 witness: no confirmation number, no
flight number. -/
def c4cand : Flight :=
  { user_email := "u", confirmation_number := none,
    flight_date := "2024-05-15", departure_airport := "SFO",
    arrival_airport := "LAX", flight_number := none }

/-- Claim C4 witness. -/
theorem null_key_candidates_both_insert_witness :
    findExactDuplicate emptyStore c4cand = none ∧
    findFlightChange emptyStore c4cand = [] ∧
    reconcileOne (fun _ => none) emptyStore c4cand =
      ⟨⟨emptyStore.nextId + 1, emptyStore.rows ++ [toRow emptyStore.nextId c4cand]⟩,
       .inserted, some (toRow emptyStore.nextId c4cand)⟩ ∧
    reconcileOne (fun _ => none)
        (reconcileOne (fun _ => none) emptyStore c4cand).store c4cand =
      ⟨⟨emptyStore.nextId + 2,
        emptyStore.rows ++ [toRow emptyStore.nextId c4cand,
          toRow (emptyStore.nextId + 1) c4cand]⟩,
       .inserted, some (toRow (emptyStore.nextId + 1) c4cand)⟩ :=
  null_key_candidates_both_insert (fun _ => none) emptyStore c4cand rfl rfl

/-! ### The delete-then-insert shape of the supersession branch -/

/-- Which rows the deletion loop removes: those whose id equals the id of
some matched record (records lacking an id delete nothing). -/
def killedBy (ms : List Flight) (r : Flight) : Bool :=
  ms.any (fun m =>
    match m.id with
    | some i => r.id == some i
    | none => false)

theorem deleteMatched_cons (m : Flight) (ms : List Flight) (st : Store) :
    deleteMatched (m :: ms) st =
      deleteMatched ms
        (match m.id with
         | some i => deleteFlight st i
         | none => st) := rfl

theorem deleteMatched_nextId (ms : List Flight) (st : Store) :
    (deleteMatched ms st).nextId = st.nextId := by
  induction ms generalizing st with
  | nil => rfl
  | cons m ms ih =>
    rw [deleteMatched_cons, ih]
    cases m.id <;> rfl

theorem killedBy_cons_none {m : Flight} (ms : List Flight) (r : Flight)
    (h : m.id = none) : killedBy (m :: ms) r = killedBy ms r := by
  simp only [killedBy, List.any_cons, h, Bool.false_or]

theorem killedBy_cons_some {m : Flight} {i : Nat} (ms : List Flight) (r : Flight)
    (h : m.id = some i) :
    killedBy (m :: ms) r = ((r.id == some i) || killedBy ms r) := by
  simp only [killedBy, List.any_cons, h]

theorem deleteMatched_rows (ms : List Flight) (st : Store) :
    (deleteMatched ms st).rows = st.rows.filter (fun r => !killedBy ms r) := by
  induction ms generalizing st with
  | nil => simp [deleteMatched, killedBy]
  | cons m ms ih =>
    rw [deleteMatched_cons, ih]
    cases hm : m.id with
    | none =>
      apply List.filter_congr
      intro r _
      rw [killedBy_cons_none ms r hm]
    | some i =>
      show (st.rows.filter fun r => r.id != some i).filter (fun r => !killedBy ms r)
          = st.rows.filter fun r => !killedBy (m :: ms) r
      rw [List.filter_filter]
      apply List.filter_congr
      intro r _
      rw [killedBy_cons_some ms r hm]
      cases h1 : (r.id == some i) <;> cases h2 : killedBy ms r <;>
        simp [bne, h1, h2]

/-- On a well-formed store (every row has an id, ids pairwise distinct) the
deletion loop for a candidate removes exactly the rows matching its change
key. -/
theorem killedBy_findFlightChange (store : Store) (cand : Flight)
    (hids : ∀ r ∈ store.rows, (Flight.id r).isSome = true)
    (hnodup : (store.rows.map Flight.id).Nodup)
    (r : Flight) (hr : r ∈ store.rows) :
    killedBy (findFlightChange store cand) r = changeKeyMatch cand r := by
  cases hc : changeKeyMatch cand r with
  | true =>
    have hrm : r ∈ findFlightChange store cand := List.mem_filter.mpr ⟨hr, hc⟩
    obtain ⟨i, hi⟩ := Option.isSome_iff_exists.mp (hids r hr)
    rw [killedBy, List.any_eq_true]
    exact ⟨r, hrm, by simp [hi]⟩
  | false =>
    rw [killedBy, List.any_eq_false]
    intro m hm
    obtain ⟨hmrows, hmkey⟩ := List.mem_filter.mp hm
    cases hmid : m.id with
    | none => simp
    | some i =>
      simp only [beq_iff_eq, Bool.not_eq_true]
      intro hcontra
      have hideq : Flight.id r = Flight.id m := by rw [hmid, hcontra]
      have hrm2 : r = m := List.inj_on_of_nodup_map hnodup hr hmrows hideq
      have hmc : changeKeyMatch cand m = false := hrm2 ▸ hc
      rw [hmc] at hmkey
      exact Bool.false_ne_true hmkey

theorem changeKeyMatch_user {cand r : Flight}
    (h : changeKeyMatch cand r = true) : r.user_email = cand.user_email := by
  simp only [changeKeyMatch, Bool.and_eq_true, beq_iff_eq] at h
  exact h.1

/-! ### Claim C1: the supersession decision -/

/-- The spec's supersession condition, exactly as the claim states it: the
candidate's sent-date parses to a timestamp strictly greater than the
maximum parseable timestamp among the matched records, or no matched record
has a parseable sent-date. -/
def specCandidateNewer (dateParse : String → Option Int) (cand : Flight)
    (matched : List Flight) : Prop :=
  (∃ t m, parseEmailSentDate dateParse cand.email_sent_date = some t ∧
    listMax (matched.filterMap
      (fun f => parseEmailSentDate dateParse f.email_sent_date)) = some m ∧
    m < t) ∨
  matched.filterMap (fun f => parseEmailSentDate dateParse f.email_sent_date) = []

/-- The route's `shouldReplace` boolean agrees with the spec's supersession
condition. -/
theorem shouldReplace_iff (dateParse : String → Option Int) (cand : Flight)
    (ms : List Flight) :
    shouldReplace dateParse cand ms = true ↔ specCandidateNewer dateParse cand ms := by
  simp only [shouldReplace, specCandidateNewer]
  cases hnew : parseEmailSentDate dateParse cand.email_sent_date with
  | none =>
    cases hl : ms.filterMap (fun f => parseEmailSentDate dateParse f.email_sent_date) with
    | nil => simp
    | cons x xs => simp [List.isEmpty]
  | some t =>
    cases hl : ms.filterMap (fun f => parseEmailSentDate dateParse f.email_sent_date) with
    | nil => simp
    | cons x xs => simp [List.isEmpty, listMax]

/-- Claim C1: for a candidate with no exact identity-key duplicate whose
change key matches one or more stored records, reconciliation deletes all
matched records and inserts the candidate exactly when the candidate's
sent-date parses strictly newer than the maximum parseable sent-date among
the matched records or no matched record has a parseable one; otherwise the
candidate is discarded as stale and the store is unchanged. -/
theorem change_detected_replace_iff_newer
    (dateParse : String → Option Int) (store : Store) (cand : Flight)
    (hids : ∀ r ∈ store.rows, (Flight.id r).isSome = true)
    (hnodup : (store.rows.map Flight.id).Nodup)
    (hexact : findExactDuplicate store cand = none)
    (hmatch : findFlightChange store cand ≠ []) :
    (specCandidateNewer dateParse cand (findFlightChange store cand) →
      reconcileOne dateParse store cand =
        ⟨⟨store.nextId + 1,
          store.rows.filter (fun r => !changeKeyMatch cand r) ++
            [toRow store.nextId cand]⟩,
         .replaced (findFlightChange store cand).length,
         some (toRow store.nextId cand)⟩) ∧
    (¬ specCandidateNewer dateParse cand (findFlightChange store cand) →
      reconcileOne dateParse store cand = ⟨store, .skippedStale, none⟩) := by
  have hne : (findFlightChange store cand).isEmpty = false := by
    cases h : findFlightChange store cand with
    | nil => exact absurd h hmatch
    | cons a l => rfl
  have hrows : (deleteMatched (findFlightChange store cand) store).rows
      = store.rows.filter (fun r => !changeKeyMatch cand r) := by
    rw [deleteMatched_rows]
    apply List.filter_congr
    intro r hr
    rw [killedBy_findFlightChange store cand hids hnodup r hr]
  have hnext : (deleteMatched (findFlightChange store cand) store).nextId
      = store.nextId := deleteMatched_nextId _ _
  have hsub : ∀ r ∈ (deleteMatched (findFlightChange store cand) store).rows,
      r ∈ store.rows := by
    rw [hrows]
    intro r hr
    exact (List.mem_filter.mp hr).1
  have hcf := createFlight_ok_of_no_dup hsub hexact
  constructor
  · intro hnew
    have hsr : shouldReplace dateParse cand (findFlightChange store cand) = true :=
      (shouldReplace_iff dateParse cand _).mpr hnew
    simp [reconcileOne, hexact, hne, hsr, hcf, hrows, hnext]
  · intro hnot
    have hsr : shouldReplace dateParse cand (findFlightChange store cand) = false := by
      cases h : shouldReplace dateParse cand (findFlightChange store cand) with
      | false => rfl
      | true => exact absurd ((shouldReplace_iff dateParse cand _).mp h) hnot
    simp [reconcileOne, hexact, hne, hsr]

/-- Concrete data for the C1 witness: one stored record sharing the
candidate's confirmation code, with an older parseable sent-date. -/
def c1row : Flight :=
  { id := some 1, user_email := "u", confirmation_number := some "ABC123",
    flight_date := "2024-05-10", departure_airport := "SFO",
    arrival_airport := "LAX", flight_number := some "UA100",
    email_sent_date := some "old" }

def c1cand : Flight :=
  { user_email := "u", confirmation_number := some "ABC123",
    flight_date := "2024-05-12", departure_airport := "SFO",
    arrival_airport := "LAX", flight_number := some "UA100",
    email_sent_date := some "new" }

def c1store : Store := { nextId := 2, rows := [c1row] }

def c1dp : String → Option Int := fun s =>
  if s = "old" then some 1 else if s = "new" then some 2 else none

/-- Claim C1 witness. -/
theorem change_detected_replace_iff_newer_witness :
    findExactDuplicate c1store c1cand = none ∧
    findFlightChange c1store c1cand ≠ [] ∧
    reconcileOne c1dp c1store c1cand =
      ⟨⟨c1store.nextId + 1,
        c1store.rows.filter (fun r => !changeKeyMatch c1cand r) ++
          [toRow c1store.nextId c1cand]⟩,
       .replaced (findFlightChange c1store c1cand).length,
       some (toRow c1store.nextId c1cand)⟩ :=
  ⟨by decide, by decide,
    (change_detected_replace_iff_newer c1dp c1store c1cand
      (by decide) (by decide) (by decide) (by decide)).1
      (Or.inl ⟨2, 1, rfl, by decide, by decide⟩)⟩

/-! ### Claim C10: frame property of one reconciliation -/

/-- Claim C10: handling one candidate never deletes or modifies any stored
record outside the change-detection matches for that candidate — records of
other users and non-matching records of the same user survive unchanged —
and the only possible additions to the store are the candidate's own
inserted row. -/
theorem reconcile_frame
    (dateParse : String → Option Int) (store : Store) (cand : Flight)
    (hids : ∀ r ∈ store.rows, (Flight.id r).isSome = true)
    (hnodup : (store.rows.map Flight.id).Nodup) :
    (∀ r ∈ store.rows, r ∉ findFlightChange store cand →
      r ∈ (reconcileOne dateParse store cand).store.rows) ∧
    (∀ r ∈ store.rows, r.user_email ≠ cand.user_email →
      r ∈ (reconcileOne dateParse store cand).store.rows) ∧
    (∀ r ∈ (reconcileOne dateParse store cand).store.rows,
      r ∈ store.rows ∨ r = toRow store.nextId cand) := by
  by_cases hd : (findExactDuplicate store cand).isSome = true
  · have hres : reconcileOne dateParse store cand = ⟨store, .skippedDuplicate, none⟩ := by
      simp [reconcileOne, hd]
    rw [hres]
    exact ⟨fun r hr _ => hr, fun r hr _ => hr, fun r hr => Or.inl hr⟩
  · have hexact : findExactDuplicate store cand = none :=
      Option.not_isSome_iff_eq_none.mp hd
    have hmem : ∀ r ∈ store.rows,
        (r ∈ findFlightChange store cand ↔ changeKeyMatch cand r = true) := by
      intro r hr
      constructor
      · intro h
        exact (List.mem_filter.mp h).2
      · intro h
        exact List.mem_filter.mpr ⟨hr, h⟩
    cases he : (findFlightChange store cand).isEmpty with
    | true =>
      have hcf := createFlight_ok_of_no_dup (fun r hr => hr) hexact
      have hres : (reconcileOne dateParse store cand).store.rows
          = store.rows ++ [toRow store.nextId cand] := by
        simp [reconcileOne, hexact, he, hcf]
      rw [hres]
      refine ⟨fun r hr _ => List.mem_append_left _ hr,
              fun r hr _ => List.mem_append_left _ hr, ?_⟩
      intro r hr
      rcases List.mem_append.mp hr with h | h
      · exact Or.inl h
      · exact Or.inr (by simpa using h)
    | false =>
      cases hsr : shouldReplace dateParse cand (findFlightChange store cand) with
      | false =>
        have hres : reconcileOne dateParse store cand = ⟨store, .skippedStale, none⟩ := by
          simp [reconcileOne, hexact, he, hsr]
        rw [hres]
        exact ⟨fun r hr _ => hr, fun r hr _ => hr, fun r hr => Or.inl hr⟩
      | true =>
        have hrows : (deleteMatched (findFlightChange store cand) store).rows
            = store.rows.filter (fun r => !changeKeyMatch cand r) := by
          rw [deleteMatched_rows]
          apply List.filter_congr
          intro r hr
          rw [killedBy_findFlightChange store cand hids hnodup r hr]
        have hnext : (deleteMatched (findFlightChange store cand) store).nextId
            = store.nextId := deleteMatched_nextId _ _
        have hsub : ∀ r ∈ (deleteMatched (findFlightChange store cand) store).rows,
            r ∈ store.rows := by
          rw [hrows]
          intro r hr
          exact (List.mem_filter.mp hr).1
        have hcf := createFlight_ok_of_no_dup hsub hexact
        have hres : (reconcileOne dateParse store cand).store.rows
            = store.rows.filter (fun r => !changeKeyMatch cand r) ++
              [toRow store.nextId cand] := by
          simp [reconcileOne, hexact, he, hsr, hcf, hrows, hnext]
        rw [hres]
        have hkeep : ∀ r ∈ store.rows, r ∉ findFlightChange store cand →
            r ∈ store.rows.filter (fun r => !changeKeyMatch cand r) ++
              [toRow store.nextId cand] := by
          intro r hr hnm
          have hck : changeKeyMatch cand r = false := by
            cases h : changeKeyMatch cand r with
            | false => rfl
            | true => exact absurd ((hmem r hr).mpr h) hnm
          exact List.mem_append_left _ (List.mem_filter.mpr ⟨hr, by simp [hck]⟩)
        refine ⟨hkeep, ?_, ?_⟩
        · intro r hr huser
          apply hkeep r hr
          intro hcontra
          exact huser (changeKeyMatch_user ((hmem r hr).mp hcontra))
        · intro r hr
          rcases List.mem_append.mp hr with h | h
          · exact Or.inl (List.mem_filter.mp h).1
          · exact Or.inr (by simpa using h)

/-- Concrete data for the C10 witness: a two-user store where the candidate
matches one record of its own user. -/
def c10other : Flight :=
  { id := some 2, user_email := "v", confirmation_number := some "ABC123",
    flight_date := "2024-05-10", departure_airport := "SFO",
    arrival_airport := "LAX", flight_number := some "UA100" }

def c10store : Store := { nextId := 3, rows := [c1row, c10other] }

/-- Claim C10 witness. -/
theorem reconcile_frame_witness :
    (∀ r ∈ c10store.rows, r ∉ findFlightChange c10store c1cand →
      r ∈ (reconcileOne c1dp c10store c1cand).store.rows) ∧
    (∀ r ∈ c10store.rows, r.user_email ≠ c1cand.user_email →
      r ∈ (reconcileOne c1dp c10store c1cand).store.rows) ∧
    (∀ r ∈ (reconcileOne c1dp c10store c1cand).store.rows,
      r ∈ c10store.rows ∨ r = toRow c10store.nextId c1cand) :=
  reconcile_frame c1dp c10store c1cand (by decide) (by decide)

/-! ### Claim C3: supersession is order independent -/

/-- Reconciling any candidate against the empty store is a plain insert. -/
theorem reconcileOne_emptyStore (dateParse : String → Option Int) (c : Flight) :
    reconcileOne dateParse emptyStore c = ⟨⟨2, [toRow 1 c]⟩, .inserted, some (toRow 1 c)⟩ := by
  simp [reconcileOne, findExactDuplicate, findFlightChange, createFlight, emptyStore]

/-- Claim C3: two candidates of one user sharing a change key but with
different flight dates and different parseable sent-dates leave, in either
arrival order, exactly one stored record — the one with the newer
sent-date.  Older-then-newer ends with the newer replacing the older;
newer-then-older ends with the older discarded as stale. -/
theorem supersession_order_independent
    (dateParse : String → Option Int) (A B : Flight) (tA tB : Int)
    (hdate : A.flight_date ≠ B.flight_date)
    (hpA : parseEmailSentDate dateParse A.email_sent_date = some tA)
    (hpB : parseEmailSentDate dateParse B.email_sent_date = some tB)
    (hlt : tA < tB)
    (hAB : changeKeyMatch B (normFields A) = true)
    (hBA : changeKeyMatch A (normFields B) = true) :
    (reconcileOne dateParse (reconcileOne dateParse emptyStore A).store B).outcome
      = .replaced 1 ∧
    (reconcileOne dateParse (reconcileOne dateParse emptyStore A).store B).store.rows
      = [toRow 2 B] ∧
    (reconcileOne dateParse (reconcileOne dateParse emptyStore B).store A).outcome
      = .skippedStale ∧
    (reconcileOne dateParse (reconcileOne dateParse emptyStore B).store A).store.rows
      = [toRow 1 B] := by
  have hck1 : changeKeyMatch B (toRow 1 A) = true := hAB
  have hck2 : changeKeyMatch A (toRow 1 B) = true := hBA
  have hbe1 : (A.flight_date == B.flight_date) = false := beq_eq_false_iff_ne.mpr hdate
  have hbe2 : (B.flight_date == A.flight_date) = false :=
    beq_eq_false_iff_ne.mpr (Ne.symm hdate)
  have hek1 : exactKeyMatch B (toRow 1 A) = false := by
    simp [exactKeyMatch, toRow_date, hbe1]
  have hek2 : exactKeyMatch A (toRow 1 B) = false := by
    simp [exactKeyMatch, toRow_date, hbe2]
  have hpA2 : parseEmailSentDate dateParse (toRow 1 A).email_sent_date = some tA := by
    rw [toRow_sent, parseEmailSentDate_normOpt]
    exact hpA
  have hpB2 : parseEmailSentDate dateParse (toRow 1 B).email_sent_date = some tB := by
    rw [toRow_sent, parseEmailSentDate_normOpt]
    exact hpB
  have hfd1 : findExactDuplicate ⟨2, [toRow 1 A]⟩ B = none := by
    simp [findExactDuplicate, hek1]
  have hfd2 : findExactDuplicate ⟨2, [toRow 1 B]⟩ A = none := by
    simp [findExactDuplicate, hek2]
  have hfc1 : findFlightChange ⟨2, [toRow 1 A]⟩ B = [toRow 1 A] := by
    simp [findFlightChange, hck1]
  have hfc2 : findFlightChange ⟨2, [toRow 1 B]⟩ A = [toRow 1 B] := by
    simp [findFlightChange, hck2]
  have hsr1 : shouldReplace dateParse B [toRow 1 A] = true := by
    simp [shouldReplace, hpB, hpA2, listMax, hlt]
  have hsr2 : shouldReplace dateParse A [toRow 1 B] = false := by
    simp [shouldReplace, hpA, hpB2, listMax, lt_asymm hlt]
  have hmain1 : reconcileOne dateParse ⟨2, [toRow 1 A]⟩ B
      = ⟨⟨3, [toRow 2 B]⟩, .replaced 1, some (toRow 2 B)⟩ := by
    simp [reconcileOne, hfd1, hfc1, hsr1, deleteMatched, deleteFlight,
      createFlight, toRow_id]
  have hmain2 : reconcileOne dateParse ⟨2, [toRow 1 B]⟩ A
      = ⟨⟨2, [toRow 1 B]⟩, .skippedStale, none⟩ := by
    simp [reconcileOne, hfd2, hfc2, hsr2]
  rw [reconcileOne_emptyStore dateParse A, reconcileOne_emptyStore dateParse B]
  refine ⟨?_, ?_, ?_, ?_⟩ <;> simp [hmain1, hmain2]

/-- Concrete data for the C3 witness. -/
def c3A : Flight :=
  { user_email := "u", confirmation_number := some "ABC123",
    flight_date := "2024-05-10", departure_airport := "SFO",
    arrival_airport := "LAX", flight_number := some "UA100",
    email_sent_date := some "old" }

def c3B : Flight :=
  { user_email := "u", confirmation_number := some "ABC123",
    flight_date := "2024-05-12", departure_airport := "SFO",
    arrival_airport := "LAX", flight_number := some "UA100",
    email_sent_date := some "new" }

def c3dp : String → Option Int := fun s =>
  if s = "old" then some 1 else if s = "new" then some 2 else none

/-- Claim C3 witness. -/
theorem supersession_order_independent_witness :
    (reconcileOne c3dp (reconcileOne c3dp emptyStore c3A).store c3B).outcome
      = .replaced 1 ∧
    (reconcileOne c3dp (reconcileOne c3dp emptyStore c3A).store c3B).store.rows
      = [toRow 2 c3B] ∧
    (reconcileOne c3dp (reconcileOne c3dp emptyStore c3B).store c3A).outcome
      = .skippedStale ∧
    (reconcileOne c3dp (reconcileOne c3dp emptyStore c3B).store c3A).store.rows
      = [toRow 1 c3B] :=
  supersession_order_independent c3dp c3A c3B 1 2 (by decide) (by decide)
    (by decide) (by decide) (by decide) (by decide)

/-! ### Claim C9: the scan response counts -/

/-- Claim C9 counterexample: when the email search finds no messages the
scan takes the early return, whose response body reports `scanned` and
`parsed` (both 0) and an empty record list but carries no `saved` count at
all — refuting the claim that every call returns all three counts. -/
theorem scan_empty_batch_omits_saved :
    (scan (fun _ => none) emptyStore []).2.saved = none := rfl

/-- Claim C9 (amended): every scan of a non-empty batch reports all three
counts — `scanned` (emails fetched), `parsed` (segments extracted) and
`saved` (records persisted, matching the returned record list) — while the
empty-mailbox early return reports only `scanned = 0` and `parsed = 0` with
an empty record list and no `saved` count. -/
theorem scan_counts_reported (dateParse : String → Option Int) (store : Store)
    (emails : List (List Flight)) :
    (emails = [] →
      (scan dateParse store emails).2 =
        { scanned := 0, parsed := 0, saved := none, flights := [] }) ∧
    (emails ≠ [] →
      (scan dateParse store emails).2.scanned = emails.length ∧
      (scan dateParse store emails).2.parsed = (emails.map List.length).sum ∧
      (scan dateParse store emails).2.saved =
        some (scan dateParse store emails).2.flights.length) := by
  constructor
  · intro h
    subst h
    rfl
  · intro h
    have hne : emails.isEmpty = false := by
      cases emails with
      | nil => exact absurd rfl h
      | cons a l => rfl
    refine ⟨?_, ?_, ?_⟩ <;> simp [scan, hne]

/-- Concrete data for the C9 witness. -/
def c9cand : Flight :=
  { user_email := "u", confirmation_number := some "Z9Z9Z9",
    flight_date := "2024-07-01", departure_airport := "SFO",
    arrival_airport := "JFK", flight_number := some "UA42" }

/-- Claim C9 witness (for the amended claim, at a one-email batch). -/
theorem scan_counts_reported_witness :
    ([[c9cand]] : List (List Flight)) ≠ [] ∧
    ((scan (fun _ => none) emptyStore [[c9cand]]).2.scanned = [[c9cand]].length ∧
     (scan (fun _ => none) emptyStore [[c9cand]]).2.parsed =
       ([[c9cand]].map List.length).sum ∧
     (scan (fun _ => none) emptyStore [[c9cand]]).2.saved =
       some (scan (fun _ => none) emptyStore [[c9cand]]).2.flights.length) :=
  ⟨by decide,
   (scan_counts_reported (fun _ => none) emptyStore [[c9cand]]).2 (by decide)⟩

/-! ### Claim C7: airport validation drops bad segments -/

/-- The spec's airport-validation rejection condition for one segment:
either code, after trimming and uppercasing, is not exactly 3 characters, or
either code does not resolve in the airport directory. -/
def segmentRejected (dir : String → Option Airport) (seg : RawSegment) : Prop :=
  (iataNorm seg.departureAirport).length ≠ 3 ∨
  (iataNorm seg.arrivalAirport).length ≠ 3 ∨
  dir (iataNorm seg.departureAirport) = none ∨
  dir (iataNorm seg.arrivalAirport) = none

theorem mem_normalizeSegments (dir : String → Option Airport)
    (segs : List RawSegment) (out : ParsedFlight) :
    out ∈ normalizeSegments dir segs ↔
      ∃ s ∈ segs, normalizeFlight dir s = some out := by
  constructor
  · intro h
    obtain ⟨a, ha, hae⟩ := List.mem_filterMap.mp h
    obtain ⟨s, hs, hsa⟩ := List.mem_map.mp ha
    refine ⟨s, hs, ?_⟩
    rw [hsa]
    exact hae
  · rintro ⟨s, hs, hfs⟩
    refine List.mem_filterMap.mpr ⟨normalizeFlight dir s, List.mem_map_of_mem _ hs, ?_⟩
    rw [hfs]
    rfl

/-- Claim C7: a segment failing airport validation is dropped (normalization
returns nothing) while the remaining segments of the same email are still
processed, and every output of the normalize-and-filter step originates
from a segment that passed validation — so no dropped segment is ever
persisted. -/
theorem invalid_segment_dropped_others_processed
    (dir : String → Option Airport) (seg : RawSegment) (pre post : List RawSegment)
    (h : segmentRejected dir seg) :
    normalizeFlight dir seg = none ∧
    normalizeSegments dir (pre ++ seg :: post)
      = normalizeSegments dir pre ++ normalizeSegments dir post ∧
    ∀ out ∈ normalizeSegments dir (pre ++ seg :: post),
      ∃ s, (s ∈ pre ∨ s ∈ post) ∧ normalizeFlight dir s = some out := by
  have hnone : normalizeFlight dir seg = none := by
    rcases h with h | h | h | h
    · simp [normalizeFlight, bne_iff_ne.mpr h]
    · simp [normalizeFlight, bne_iff_ne.mpr h]
    · simp [normalizeFlight, h]
    · cases hdep : dir (iataNorm seg.departureAirport) with
      | none => simp [normalizeFlight, hdep]
      | some dep => simp [normalizeFlight, hdep, h]
  have hsplit : normalizeSegments dir (pre ++ seg :: post)
      = normalizeSegments dir pre ++ normalizeSegments dir post := by
    simp [normalizeSegments, List.filterMap_append, hnone]
  refine ⟨hnone, hsplit, ?_⟩
  intro out hout
  rw [hsplit] at hout
  rcases List.mem_append.mp hout with hmem | hmem
  · obtain ⟨s, hs, hfs⟩ := (mem_normalizeSegments dir pre out).mp hmem
    exact ⟨s, Or.inl hs, hfs⟩
  · obtain ⟨s, hs, hfs⟩ := (mem_normalizeSegments dir post out).mp hmem
    exact ⟨s, Or.inr hs, hfs⟩

/-- Concrete airport directory for the C7 witness. -/
def c7dir : String → Option Airport := fun s =>
  if s = "SFO" then some ⟨"San Francisco", 37, -122⟩
  else if s = "LAX" then some ⟨"Los Angeles", 33, -118⟩
  else none

/-- Concrete segments for the C7 witness: the middle segment has a 2-letter
departure code. -/
def c7bad : RawSegment :=
  { flightDateLocal := "2024-07-01", departureAirport := some "SF",
    arrivalAirport := some "LAX" }

def c7good1 : RawSegment :=
  { flightDateLocal := "2024-07-01", departureAirport := some "sfo ",
    arrivalAirport := some "LAX" }

def c7good2 : RawSegment :=
  { flightDateLocal := "2024-07-02", departureAirport := some "LAX",
    arrivalAirport := some "SFO" }

/-- Claim C7 witness. -/
theorem invalid_segment_dropped_others_processed_witness :
    normalizeFlight c7dir c7bad = none ∧
    normalizeSegments c7dir ([c7good1] ++ c7bad :: [c7good2])
      = normalizeSegments c7dir [c7good1] ++ normalizeSegments c7dir [c7good2] ∧
    ∀ out ∈ normalizeSegments c7dir ([c7good1] ++ c7bad :: [c7good2]),
      ∃ s, (s ∈ [c7good1] ∨ s ∈ [c7good2]) ∧ normalizeFlight c7dir s = some out :=
  invalid_segment_dropped_others_processed c7dir c7bad [c7good1] [c7good2]
    (Or.inl (by decide))

/-! ### Claim C6: globe-focus block stripping -/

theorem lcChars_append (a b : List Char) : lcChars (a ++ b) = lcChars a ++ lcChars b :=
  List.map_append _ a b

theorem beginsWith_append (p t : List Char) : beginsWith p (p ++ t) = true := by
  induction p with
  | nil => rfl
  | cons c cs ih => simp [beginsWith, ih]

theorem beginsWith_nil_eq_false {p : List Char} (hp : p ≠ []) :
    beginsWith p [] = false := by
  cases p with
  | nil => exact absurd rfl hp
  | cons c cs => rfl

/-- The scanning function returns index `n` exactly when the pattern occurs
at `n` and at no earlier index. -/
theorem findSubIdx_at {pat : List Char} (hp : pat ≠ []) :
    ∀ (n : Nat) (s : List Char), beginsWith pat (s.drop n) = true →
      (∀ m, m < n → beginsWith pat (s.drop m) = false) →
      findSubIdx pat s = some n := by
  intro n
  induction n with
  | zero =>
    intro s h0 _
    rw [List.drop_zero] at h0
    cases s with
    | nil => simp [findSubIdx, h0]
    | cons c cs => simp [findSubIdx, h0]
  | succ n ih =>
    intro s h0 hmin
    cases s with
    | nil =>
      rw [List.drop_nil, beginsWith_nil_eq_false hp] at h0
      exact absurd h0 (by simp)
    | cons c cs =>
      have hc : beginsWith pat (c :: cs) = false := by
        have := hmin 0 (Nat.succ_pos n)
        rwa [List.drop_zero] at this
      have hrec : findSubIdx pat cs = some n := by
        apply ih
        · simpa using h0
        · intro m hm
          have := hmin (m + 1) (Nat.succ_lt_succ hm)
          simpa using this
      rw [show findSubIdx pat (c :: cs)
          = if beginsWith pat (c :: cs) then some 0
            else (findSubIdx pat cs).map (· + 1) from rfl, hc, hrec]
      simp

/-- Claim C6: for a final answer of the shape
`pre <globe_focus> inner </globe_focus> post` (first open marker at the
displayed position, first close marker ending the displayed inner text,
markers case-insensitive), the returned content is the trimmed
concatenation of `pre` and `post` — markers and inner JSON removed — for
every behavior of the `JSON.parse` collaborator; and a parse failure or an
unrecognized mode yields no focus directive while the cleaned answer is
still returned. -/
theorem focus_block_stripped
    (jsonParse : List Char → Option FocusCandidate)
    (pre op inner cl post : List Char)
    (hop : lcChars op = openMarker)
    (hcl : lcChars cl = closeMarker)
    (hfirst : ∀ m, m < pre.length →
      beginsWith openMarker ((lcChars (pre ++ op ++ inner ++ cl ++ post)).drop m) = false)
    (hinner : ∀ m, m < inner.length →
      beginsWith closeMarker ((lcChars (inner ++ cl ++ post)).drop m) = false) :
    (parseGlobeFocusBlock jsonParse (pre ++ op ++ inner ++ cl ++ post)).1
      = jsTrim (pre ++ post) ∧
    (jsonParse (jsTrim inner) = none →
      (parseGlobeFocusBlock jsonParse (pre ++ op ++ inner ++ cl ++ post)).2 = none) ∧
    (∀ c, jsonParse (jsTrim inner) = some c → isValidGlobeFocusMode c.mode = false →
      (parseGlobeFocusBlock jsonParse (pre ++ op ++ inner ++ cl ++ post)).2 = none) := by
  have hcontent : pre ++ op ++ inner ++ cl ++ post
      = pre ++ (op ++ (inner ++ (cl ++ post))) := by
    simp [List.append_assoc]
  have hlenop : op.length = openMarker.length := by
    rw [← hop, lcChars, List.length_map]
  have hlencl : cl.length = closeMarker.length := by
    rw [← hcl, lcChars, List.length_map]
  have hplen : pre.length = (lcChars pre).length := (List.length_map pre _).symm
  have hilen : inner.length = (lcChars inner).length := (List.length_map inner _).symm
  have hlc : lcChars (pre ++ op ++ inner ++ cl ++ post)
      = lcChars pre ++ (openMarker ++ lcChars (inner ++ (cl ++ post))) := by
    rw [hcontent, lcChars_append, lcChars_append, hop]
  have h1 : findSubIdx openMarker (lcChars (pre ++ op ++ inner ++ cl ++ post))
      = some pre.length := by
    apply findSubIdx_at (show openMarker ≠ [] by decide)
    · rw [hlc, hplen, List.drop_left]
      exact beginsWith_append _ _
    · exact hfirst
  have hdrop1 : (lcChars (pre ++ op ++ inner ++ cl ++ post)).drop
      (pre.length + openMarker.length) = lcChars (inner ++ (cl ++ post)) := by
    rw [hlc, ← List.drop_drop, hplen, List.drop_left, List.drop_left]
  have h2 : findSubIdx closeMarker
      ((lcChars (pre ++ op ++ inner ++ cl ++ post)).drop
        (pre.length + openMarker.length)) = some inner.length := by
    rw [hdrop1]
    apply findSubIdx_at (show closeMarker ≠ [] by decide)
    · rw [lcChars_append, lcChars_append, hcl, hilen, List.drop_left]
      exact beginsWith_append _ _
    · intro m hm
      have := hinner m hm
      rwa [List.append_assoc] at this
  have htake : (pre ++ op ++ inner ++ cl ++ post).take pre.length = pre := by
    rw [hcontent]
    exact List.take_left pre _
  have hdropmid : (pre ++ op ++ inner ++ cl ++ post).drop
      (pre.length + openMarker.length) = inner ++ (cl ++ post) := by
    rw [hcontent, ← List.drop_drop, List.drop_left, ← hlenop, List.drop_left]
  have hinner_extract : ((pre ++ op ++ inner ++ cl ++ post).drop
      (pre.length + openMarker.length)).take inner.length = inner := by
    rw [hdropmid]
    exact List.take_left inner _
  have hdropfinal : (pre ++ op ++ inner ++ cl ++ post).drop
      (pre.length + openMarker.length + inner.length + closeMarker.length) = post := by
    rw [hcontent, ← List.drop_drop, ← List.drop_drop, ← List.drop_drop,
      List.drop_left, ← hlenop, List.drop_left, List.drop_left, ← hlencl,
      List.drop_left]
  refine ⟨?_, ?_, ?_⟩
  · simp only [parseGlobeFocusBlock, h1, h2]
    rw [htake, hdropfinal]
  · intro hjp
    simp only [parseGlobeFocusBlock, h1, h2]
    rw [hinner_extract, hjp]
  · intro c hjp hmode
    simp only [parseGlobeFocusBlock, h1, h2]
    rw [hinner_extract, hjp]
    simp [buildFocusPayload, hmode]

/-- Concrete data for the C6 witness. -/
def c6parse : List Char → Option FocusCandidate := fun _ => none

def c6pre : List Char := "Here are your flights! ".toList

def c6inner : List Char := " not valid json at all ".toList

def c6post : List Char := " And a tail.".toList

/-- Claim C6 witness. -/
theorem focus_block_stripped_witness :
    (parseGlobeFocusBlock c6parse
        (c6pre ++ openMarker ++ c6inner ++ closeMarker ++ c6post)).1
      = jsTrim (c6pre ++ c6post) ∧
    (parseGlobeFocusBlock c6parse
        (c6pre ++ openMarker ++ c6inner ++ closeMarker ++ c6post)).2 = none :=
  have h := focus_block_stripped c6parse c6pre openMarker c6inner closeMarker c6post
    (by decide) (by decide) (by decide) (by decide)
  ⟨h.1, h.2.1 rfl⟩

/-! ### Claim C5: the loop is capped at 5 iterations and still answers -/

/-- Every tool in the fixed catalogue executes successfully. -/
theorem executeTool_ok_of_known {toolName : String} (args : ToolArgs)
    (userEmail : String) (store : Store) (h : toolName ∈ toolNames) :
    ∃ r, executeTool toolName args userEmail store = .ok r := by
  simp only [toolNames, List.mem_cons, List.not_mem_nil, or_false] at h
  rcases h with h | h | h | h | h | h <;> subst h <;> exact ⟨_, rfl⟩

theorem execTools_ok (userEmail : String) (store : Store) :
    ∀ tcs : List ToolCallReq, (∀ tc ∈ tcs, tc.name ∈ toolNames) →
      ∃ invs, execTools userEmail store tcs = .ok invs := by
  intro tcs
  induction tcs with
  | nil => exact fun _ => ⟨[], rfl⟩
  | cons tc rest ih =>
    intro h
    obtain ⟨res, hres⟩ := executeTool_ok_of_known tc.args userEmail store
      (h tc (List.mem_cons_self tc rest))
    obtain ⟨tail, htail⟩ := ih (fun x hx => h x (List.mem_cons_of_mem tc hx))
    exact ⟨⟨tc.name, tc.args, res⟩ :: tail, by simp only [execTools, hres, htail]⟩

/-- Against a backend that requests tool calls on every response (all of
them in the catalogue), the loop runs its full fuel and exits at the
response indexed by the iteration cap. -/
theorem chatAux_forced (backend : Nat → ModelResponse) (userEmail : String)
    (store : Store)
    (h1 : ∀ n, (backend n).finishReason = "tool_calls")
    (h2 : ∀ n, ∀ tc ∈ (backend n).toolCalls, tc.name ∈ toolNames) :
    ∀ (fuel k : Nat) (acc : List ToolInvocation),
      ∃ acc2, chatAux backend userEmail store fuel (backend k) k acc
        = .ok (backend (k + fuel), k + fuel, acc2) := by
  intro fuel
  induction fuel with
  | zero => exact fun k acc => ⟨acc, by simp [chatAux]⟩
  | succ fuel ih =>
    intro k acc
    obtain ⟨invs, hinvs⟩ := execTools_ok userEmail store (backend k).toolCalls (h2 k)
    obtain ⟨acc2, hacc⟩ := ih (k + 1) (acc ++ invs)
    refine ⟨acc2, ?_⟩
    simp only [chatAux, if_pos (h1 k), hinvs, hacc]
    have harith : k + 1 + fuel = k + (fuel + 1) := by omega
    rw [harith]

/-- The loop counter at exit never exceeds the starting counter plus the
remaining fuel. -/
theorem chatAux_iterations_le (backend : Nat → ModelResponse) (userEmail : String)
    (store : Store) :
    ∀ (fuel : Nat) (resp : ModelResponse) (iters : Nat)
      (acc : List ToolInvocation) (r : ModelResponse) (n : Nat)
      (a : List ToolInvocation),
      chatAux backend userEmail store fuel resp iters acc = .ok (r, n, a) →
      n ≤ iters + fuel := by
  intro fuel
  induction fuel with
  | zero =>
    intro resp iters acc r n a h
    simp [chatAux] at h
    omega
  | succ fuel ih =>
    intro resp iters acc r n a h
    simp only [chatAux] at h
    by_cases hc : resp.finishReason = "tool_calls"
    · rw [if_pos hc] at h
      cases hex : execTools userEmail store resp.toolCalls with
      | error e =>
        rw [hex] at h
        exact absurd h (by simp)
      | ok invs =>
        rw [hex] at h
        have := ih (backend (iters + 1)) (iters + 1) (acc ++ invs) r n a h
        omega
    · rw [if_neg hc] at h
      simp at h
      omega

/-- The fallback message contains no focus marker, so block parsing leaves
it untouched. -/
theorem parseGlobeFocusBlock_fallback (jsonParse : List Char → Option FocusCandidate) :
    parseGlobeFocusBlock jsonParse fallbackMessage = (fallbackMessage, none) := by
  have h : findSubIdx openMarker (lcChars fallbackMessage) = none := by decide
  simp [parseGlobeFocusBlock, h]

/-- Claim C5: every chat turn performs at most 5 tool-execution iterations;
a backend that requests catalogue tool calls on every response is
force-stopped at exactly 5 iterations without error, and when its final
response carries no textual content the turn still returns the fixed
non-empty fallback answer. -/
theorem chat_iteration_cap_and_fallback
    (backend : Nat → ModelResponse) (jsonParse : List Char → Option FocusCandidate)
    (userEmail : String) (store : Store)
    (h1 : ∀ n, (backend n).finishReason = "tool_calls")
    (h2 : ∀ n, ∀ tc ∈ (backend n).toolCalls, tc.name ∈ toolNames)
    (h3 : (backend maxIterations).content = none) :
    (∀ (b2 : Nat → ModelResponse) (p2 : List Char → Option FocusCandidate)
       (u2 : String) (s2 : Store) (out : ChatOut),
      chat b2 p2 u2 s2 = .ok out → out.iterations ≤ maxIterations) ∧
    ∃ out, chat backend jsonParse userEmail store = .ok out ∧
      out.iterations = maxIterations ∧ out.message = fallbackMessage ∧
      out.message ≠ [] := by
  constructor
  · intro b2 p2 u2 s2 out hout
    unfold chat at hout
    cases hx : chatAux b2 u2 s2 maxIterations (b2 0) 0 [] with
    | error e =>
      rw [hx] at hout
      exact absurd hout (by simp)
    | ok trip =>
      obtain ⟨r, n, a⟩ := trip
      rw [hx] at hout
      have hb := chatAux_iterations_le b2 u2 s2 maxIterations (b2 0) 0 [] r n a hx
      have : out.iterations = n := by
        have h2' := Except.ok.inj hout
        rw [← h2']
      omega
  · obtain ⟨acc2, hrun⟩ :=
      chatAux_forced backend userEmail store h1 h2 maxIterations 0 []
    rw [Nat.zero_add] at hrun
    refine ⟨{ message := fallbackMessage
              toolCalls := if acc2.length > 0 then some acc2 else none
              globeFocus := none
              iterations := maxIterations }, ?_, rfl, rfl,
            (by decide : fallbackMessage ≠ [])⟩
    simp [chat, hrun, h3, parseGlobeFocusBlock_fallback]

/-- Concrete backend for the C5 witness: it requests (zero) tool calls with
finish reason `tool_calls` on every response and never produces content. -/
def c5backend : Nat → ModelResponse := fun _ =>
  { finishReason := "tool_calls", content := none, toolCalls := [] }

/-- Claim C5 witness. -/
theorem chat_iteration_cap_and_fallback_witness :
    (∀ (b2 : Nat → ModelResponse) (p2 : List Char → Option FocusCandidate)
       (u2 : String) (s2 : Store) (out : ChatOut),
      chat b2 p2 u2 s2 = .ok out → out.iterations ≤ maxIterations) ∧
    ∃ out, chat c5backend (fun _ => none) "u" emptyStore = .ok out ∧
      out.iterations = maxIterations ∧ out.message = fallbackMessage ∧
      out.message ≠ [] :=
  chat_iteration_cap_and_fallback c5backend (fun _ => none) "u" emptyStore
    (fun _ => rfl) (fun _ tc h => absurd h (List.not_mem_nil tc)) rfl

/-! ### Claim C8: raw email bodies are redacted from tool results -/

/-- Every tool except `getEmailBodies` returns flight records with the raw
email body removed. -/
theorem executeTool_redacted {toolName : String} {args : ToolArgs}
    {userEmail : String} {store : Store} {res : ToolResult}
    (hok : executeTool toolName args userEmail store = .ok res)
    (hne : toolName ≠ "getEmailBodies") :
    ∀ f ∈ resultFlightRecords res, f.raw_email_content = none := by
  intro f hf
  unfold executeTool at hok
  split_ifs at hok with g1 g2 g3 g4 g5
  all_goals first
  | (rw [← Except.ok.inj hok] at hf
     simp only [resultFlightRecords, List.mem_map] at hf
     obtain ⟨g, _, hg⟩ := hf
     rw [← hg]
     rfl)
  | (rw [← Except.ok.inj hok] at hf
     simp [resultFlightRecords] at hf)

theorem execTools_redacted (userEmail : String) (store : Store) :
    ∀ (tcs : List ToolCallReq) (invs : List ToolInvocation),
      execTools userEmail store tcs = .ok invs →
      ∀ inv ∈ invs, inv.tool ≠ "getEmailBodies" →
        ∀ f ∈ resultFlightRecords inv.result, f.raw_email_content = none := by
  intro tcs
  induction tcs with
  | nil =>
    intro invs h inv hinv
    simp [execTools] at h
    rw [h] at hinv
    simp at hinv
  | cons tc rest ih =>
    intro invs h inv hinv hne f hf
    simp only [execTools] at h
    cases hex : executeTool tc.name tc.args userEmail store with
    | error e =>
      rw [hex] at h
      exact absurd h (by simp)
    | ok res =>
      rw [hex] at h
      cases hrest : execTools userEmail store rest with
      | error e =>
        rw [hrest] at h
        exact absurd h (by simp)
      | ok tail =>
        rw [hrest] at h
        rw [← Except.ok.inj h] at hinv
        rcases List.mem_cons.mp hinv with heq | hmem
        · subst heq
          exact executeTool_redacted hex hne f hf
        · exact ih tail hrest inv hmem hne f hf

theorem chatAux_redacted (backend : Nat → ModelResponse) (userEmail : String)
    (store : Store) :
    ∀ (fuel : Nat) (resp : ModelResponse) (iters : Nat)
      (acc : List ToolInvocation) (r : ModelResponse) (n : Nat)
      (a : List ToolInvocation),
      (∀ inv ∈ acc, inv.tool ≠ "getEmailBodies" →
        ∀ f ∈ resultFlightRecords inv.result, f.raw_email_content = none) →
      chatAux backend userEmail store fuel resp iters acc = .ok (r, n, a) →
      ∀ inv ∈ a, inv.tool ≠ "getEmailBodies" →
        ∀ f ∈ resultFlightRecords inv.result, f.raw_email_content = none := by
  intro fuel
  induction fuel with
  | zero =>
    intro resp iters acc r n a hacc h
    simp [chatAux] at h
    rw [← h.2.2]
    exact hacc
  | succ fuel ih =>
    intro resp iters acc r n a hacc h
    simp only [chatAux] at h
    by_cases hc : resp.finishReason = "tool_calls"
    · rw [if_pos hc] at h
      cases hex : execTools userEmail store resp.toolCalls with
      | error e =>
        rw [hex] at h
        exact absurd h (by simp)
      | ok invs =>
        rw [hex] at h
        refine ih (backend (iters + 1)) (iters + 1) (acc ++ invs) r n a ?_ h
        intro inv hinv
        rcases List.mem_append.mp hinv with hmem | hmem
        · exact hacc inv hmem
        · exact execTools_redacted userEmail store resp.toolCalls invs hex inv hmem
    · rw [if_neg hc] at h
      simp at h
      rw [← h.2.2]
      exact hacc

/-- Claim C8: in every chat turn, each executed tool invocation other than
`getEmailBodies` carries no raw email body in its flight records — the
date-range and airport lookups are sanitized, and the remaining non-email
tools return no flight records at all. -/
theorem chat_redacts_raw_email
    (backend : Nat → ModelResponse) (jsonParse : List Char → Option FocusCandidate)
    (userEmail : String) (store : Store) (out : ChatOut)
    (hok : chat backend jsonParse userEmail store = .ok out) :
    ∀ inv ∈ out.toolCalls.getD [], inv.tool ≠ "getEmailBodies" →
      ∀ f ∈ resultFlightRecords inv.result, f.raw_email_content = none := by
  unfold chat at hok
  cases hx : chatAux backend userEmail store maxIterations (backend 0) 0 [] with
  | error e =>
    rw [hx] at hok
    exact absurd hok (by simp)
  | ok trip =>
    obtain ⟨r, n, a⟩ := trip
    rw [hx] at hok
    have hprop := chatAux_redacted backend userEmail store maxIterations
      (backend 0) 0 [] r n a (by intro inv h; simp at h) hx
    intro inv hinv
    rw [← Except.ok.inj hok] at hinv
    by_cases hlen : a.length > 0
    · rw [if_pos hlen] at hinv
      exact hprop inv (by simpa using hinv)
    · rw [if_neg hlen] at hinv
      simp at hinv

/-- Concrete data for the C8 witness: one stored flight carrying a raw
body, one backend turn requesting a date-range lookup. -/
def c8row : Flight :=
  { id := some 1, user_email := "u", flight_date := "2024-05-15",
    departure_airport := "SFO", arrival_airport := "LAX",
    raw_email_content := some "full raw email body" }

def c8store : Store := { nextId := 2, rows := [c8row] }

def c8backend : Nat → ModelResponse := fun n =>
  if n = 0 then
    { finishReason := "tool_calls", content := none,
      toolCalls := [{ callId := "call1", name := "getFlightsByDateRange",
                      args := { startDate := "2024-01-01", endDate := "2024-12-31" } }] }
  else { finishReason := "stop", content := some "Here they are.".toList }

/-- The chat output of the C8 witness run. -/
def c8out : ChatOut :=
  match chat c8backend (fun _ => none) "u" c8store with
  | .ok o => o
  | .error _ => ⟨[], none, none, 0⟩

/-- Claim C8 witness. -/
theorem chat_redacts_raw_email_witness :
    chat c8backend (fun _ => none) "u" c8store = .ok c8out ∧
    ∀ inv ∈ c8out.toolCalls.getD [], inv.tool ≠ "getEmailBodies" →
      ∀ f ∈ resultFlightRecords inv.result, f.raw_email_content = none :=
  ⟨rfl, fun inv hinv =>
    chat_redacts_raw_email c8backend (fun _ => none) "u" c8store c8out rfl inv hinv⟩

end FlightStats
